import Mathlib

/-!
Verification of the OmniSafe constrained-RL toolkit's safe-planning core
against its specification.  Machine integers and reals are modelled exactly:
episodic costs, gains and losses over `ℚ`; a possibly-NaN scalar over
`Option ℚ` (`none` = NaN); fallible code over `Except`.
-/

namespace OmniSafe

/-! ## PID Lagrangian controller and dual-ascent Lagrange multiplier

The controllers live in `omnisafe/common/pid_lagrange.py` and
`omnisafe/common/lagrange.py`, which are absent from the source tree (only
their callers are present); they are modelled from the specification.
-/

/-- State of the PID-controlled Lagrange multiplier (`LagrangeState` of the
spec, restricted to the PID variant): gains, set-point, clip bound, and the
mutable integral / previous-error / multiplier registers. -/
structure PIDLagrangian where
  pid_kp : ℚ
  pid_ki : ℚ
  pid_kd : ℚ
  cost_limit : ℚ
  multiplier_max : ℚ
  integral_term : ℚ
  previous_error : ℚ
  multiplier : ℚ
deriving Repr, DecidableEq

/-- `clip(x, lo, hi)`. -/
def clip (x lo hi : ℚ) : ℚ := max lo (min x hi)

/-- Modelled from the spec: the update rule of `PIDLagrangian.pid_update`
(`omnisafe/common/pid_lagrange.py`, absent from the source tree), given the
mean episodic cost `Jc` for the cycle:
1. `error = Jc - cost_limit`;
2. `integral_term = max(0, integral_term + error)`;
3. `derivative_term = error - previous_error`; `previous_error = error`;
4. `raw = Kp * error + Ki * integral_term + Kd * derivative_term`;
5. `multiplier = clip(raw, 0, multiplier_max)`. -/
def pid_update (s : PIDLagrangian) (Jc : ℚ) : PIDLagrangian :=
  let error := Jc - s.cost_limit
  let integral := max 0 (s.integral_term + error)
  let derivative := error - s.previous_error
  let raw := s.pid_kp * error + s.pid_ki * integral + s.pid_kd * derivative
  { s with integral_term := integral,
           previous_error := error,
           multiplier := clip raw 0 s.multiplier_max }

/-- A float-valued episodic cost as seen by the controllers: either a finite
value or NaN (`none`). -/
abbrev EpCost := Option ℚ

/-- Modelled from the spec: the error condition of the PID controller
(`omnisafe/common/pid_lagrange.py`, absent from the source tree) — `Jc` must
not be NaN; a NaN input is a fatal error raised at the point of detection,
before the multiplier is modified, not silently ignored.  A finite input runs
the update rule `pid_update`. -/
def pid_update_checked (s : PIDLagrangian) (Jc : EpCost) : Except String PIDLagrangian :=
  match Jc with
  | none => Except.error "cost for updating lagrange multiplier is nan"
  | some jc => Except.ok (pid_update s jc)

/-- State of the dual-ascent Lagrange multiplier
(`omnisafe/common/lagrange.py`, absent from the source tree). -/
structure Lagrange where
  cost_limit : ℚ
  lambda_lr : ℚ
  lagrangian_multiplier : ℚ
deriving Repr, DecidableEq

/-- Modelled from the spec: `Lagrange.update_lagrange_multiplier`
(`omnisafe/common/lagrange.py`, absent from the source tree) —
`multiplier = max(0, multiplier + lr * (Jc - cost_limit))`, with no
integral/derivative terms and no upper clip. -/
def update_lagrange_multiplier (s : Lagrange) (Jc : ℚ) : Lagrange :=
  let m := max 0 (s.lagrangian_multiplier + s.lambda_lr * (Jc - s.cost_limit))
  { s with lagrangian_multiplier := m }

/-! ## Algorithm update cycles that drive the multipliers (from src) -/

/-- The multiplier-relevant state of the `DDPGPID` algorithm
(`src/omnisafe/algorithms/off_policy/ddpg_pid.py`): current epoch, the
configured `algo_cfgs.warmup_epochs`, and the PID controller. -/
structure DDPGPIDAlg where
  epoch : ℕ
  warmup_epochs : ℕ
  lagrange : PIDLagrangian
deriving Repr, DecidableEq

/-- The multiplier-updating part of `DDPGPID._update`
(`src/omnisafe/algorithms/off_policy/ddpg_pid.py`):
`if self._epoch > self._cfgs.algo_cfgs.warmup_epochs: self._lagrange.pid_update(Jc)`.
The actor-critic updates and logging of the method are out of scope. -/
def DDPGPID_update (alg : DDPGPIDAlg) (Jc : EpCost) : Except String DDPGPIDAlg :=
  if alg.warmup_epochs < alg.epoch then
    (pid_update_checked alg.lagrange Jc).map (fun l => { alg with lagrange := l })
  else
    Except.ok alg

/-- The multiplier-updating part of `CPPOPid.update`, identical in both
implementations (`src/omnisafe/algorithms/on_policy/cppo_pid.py` and
`src/omnisafe/algorithms/on_policy/pid_lagrange/cppo_pid.py`):
`ep_costs = self.logger.get_stats('Metrics/EpCost')[0]; self.pid_update(ep_costs)`
— called unconditionally, with no epoch or warm-up gate.  The policy/value
updates of the method are out of scope. -/
def CPPOPid_update (s : PIDLagrangian) (ep_costs : EpCost) : Except String PIDLagrangian :=
  pid_update_checked s ep_costs

/-- The multiplier-updating part of `CAPPETS._update_epoch`
(`src/omnisafe/algorithms/model_based/cap_pets.py`):
`assert not np.isnan(Jc), 'cost for updating lagrange multiplier is nan'`
followed by `self._lagrange.update_lagrange_multiplier(Jc)`. -/
def CAPPETS_update_epoch (lag : Lagrange) (Jc : EpCost) : Except String Lagrange :=
  match Jc with
  | none => Except.error "cost for updating lagrange multiplier is nan"
  | some jc => Except.ok (update_lagrange_multiplier lag jc)

/-! ## Helper lemmas for the multiplier invariants -/

/-- Clipping to `[0, hi]` yields a nonnegative value. -/
theorem clip_nonneg (x hi : ℚ) : 0 ≤ clip x 0 hi := le_max_left _ _

/-- Clipping to `[0, hi]` stays below `hi` when `hi` is nonnegative. -/
theorem clip_le_hi (x hi : ℚ) (h : 0 ≤ hi) : clip x 0 hi ≤ hi :=
  max_le h (min_le_right _ _)

/-- One PID update leaves the configuration fields untouched and puts the
multiplier inside `[0, multiplier_max]` whenever the bound is nonnegative. -/
theorem pid_update_multiplier_mem (s : PIDLagrangian) (Jc : ℚ)
    (hmax : 0 ≤ s.multiplier_max) :
    0 ≤ (pid_update s Jc).multiplier ∧
      (pid_update s Jc).multiplier ≤ (pid_update s Jc).multiplier_max :=
  ⟨clip_nonneg _ _, clip_le_hi _ _ hmax⟩

/-- `pid_update` does not change `multiplier_max`. -/
theorem pid_update_multiplier_max (s : PIDLagrangian) (Jc : ℚ) :
    (pid_update s Jc).multiplier_max = s.multiplier_max := rfl

/-- Folding `pid_update` over any finite cost sequence keeps the multiplier
in `[0, multiplier_max]`, provided it starts there. -/
theorem pid_fold_invariant (costs : List ℚ) (s : PIDLagrangian)
    (h0 : 0 ≤ s.multiplier) (h1 : s.multiplier ≤ s.multiplier_max) :
    0 ≤ (costs.foldl pid_update s).multiplier ∧
      (costs.foldl pid_update s).multiplier ≤ (costs.foldl pid_update s).multiplier_max := by
  induction costs generalizing s with
  | nil => exact ⟨h0, h1⟩
  | cons c rest ih =>
    have hmax : 0 ≤ s.multiplier_max := le_trans h0 h1
    have hstep := pid_update_multiplier_mem s c hmax
    exact ih (pid_update s c) hstep.1 hstep.2

/-- One dual-ascent update always produces a nonnegative multiplier. -/
theorem lagrange_update_nonneg (s : Lagrange) (Jc : ℚ) :
    0 ≤ (update_lagrange_multiplier s Jc).lagrangian_multiplier :=
  le_max_left _ _

/-- Folding the dual-ascent update over any finite cost sequence keeps the
multiplier nonnegative, provided it starts nonnegative. -/
theorem lagrange_fold_nonneg (costs : List ℚ) (s : Lagrange)
    (h0 : 0 ≤ s.lagrangian_multiplier) :
    0 ≤ (costs.foldl update_lagrange_multiplier s).lagrangian_multiplier := by
  induction costs generalizing s with
  | nil => exact h0
  | cons c rest ih => exact ih (update_lagrange_multiplier s c) (lagrange_update_nonneg s c)

/-- Folding `pid_update` never changes the `multiplier_max` configuration field. -/
theorem pid_fold_multiplier_max (costs : List ℚ) (s : PIDLagrangian) :
    (costs.foldl pid_update s).multiplier_max = s.multiplier_max := by
  induction costs generalizing s with
  | nil => rfl
  | cons c rest ih => exact (ih (pid_update s c)).trans rfl

/-- A concrete PID controller state: `Kp = 1`, `Ki = 1/10`, `Kd = 0`,
`cost_limit = 1`, `multiplier_max = 10`, registers zeroed. -/
def pidS0 : PIDLagrangian :=
  { pid_kp := 1, pid_ki := 1/10, pid_kd := 0, cost_limit := 1,
    multiplier_max := 10, integral_term := 0, previous_error := 0, multiplier := 0 }

/-- A concrete dual-ascent state: `cost_limit = 0`, `lambda_lr = 1`,
multiplier `0`. -/
def lagS0 : Lagrange := { cost_limit := 0, lambda_lr := 1, lagrangian_multiplier := 0 }

/-- Claim C1 (amended): for every valid configuration and every finite cost
sequence, the PID multiplier remains in `[0, multiplier_max]`; the dual-ascent
multiplier remains nonnegative under every finite cost sequence, but it has no
upper bound — for every candidate bound `M` some nonnegative state and step
cost push it strictly above `M`. -/
theorem claim_C1 :
    (∀ s : PIDLagrangian, 0 ≤ s.multiplier → s.multiplier ≤ s.multiplier_max →
      ∀ costs : List ℚ, 0 ≤ (costs.foldl pid_update s).multiplier ∧
        (costs.foldl pid_update s).multiplier ≤ s.multiplier_max)
    ∧ (∀ l : Lagrange, 0 ≤ l.lagrangian_multiplier →
      ∀ costs : List ℚ,
        0 ≤ (costs.foldl update_lagrange_multiplier l).lagrangian_multiplier)
    ∧ (∀ M : ℚ, ∃ (l : Lagrange) (Jc : ℚ), 0 ≤ l.lagrangian_multiplier ∧
        M < (update_lagrange_multiplier l Jc).lagrangian_multiplier) := by
  refine ⟨fun s h0 h1 costs => ?_, fun l h0 costs => lagrange_fold_nonneg costs l h0,
    fun M => ⟨lagS0, M + 1, le_refl 0, ?_⟩⟩
  · have h := pid_fold_invariant costs s h0 h1
    exact ⟨h.1, by rw [pid_fold_multiplier_max costs s] at h; exact h.2⟩
  · show M < max 0 (0 + 1 * (M + 1 - 0))
    have : M < M + 1 := lt_add_one M
    calc M < M + 1 := this
    _ = 0 + 1 * (M + 1 - 0) := by ring
    _ ≤ max 0 (0 + 1 * (M + 1 - 0)) := le_max_right _ _

/-- Witness for claim C1 at the concrete states `pidS0`, `lagS0` and cost
sequences `[5, -3]` and `[7]`. -/
theorem claim_C1_witness :
    ((0:ℚ) ≤ pidS0.multiplier) ∧ (pidS0.multiplier ≤ pidS0.multiplier_max) ∧
    (0 ≤ (([5, -3] : List ℚ).foldl pid_update pidS0).multiplier ∧
      (([5, -3] : List ℚ).foldl pid_update pidS0).multiplier ≤ pidS0.multiplier_max) ∧
    ((0:ℚ) ≤ lagS0.lagrangian_multiplier) ∧
    (0 ≤ (([7] : List ℚ).foldl update_lagrange_multiplier lagS0).lagrangian_multiplier) :=
  ⟨by norm_num [pidS0], by norm_num [pidS0],
    claim_C1.1 pidS0 (by norm_num [pidS0]) (by norm_num [pidS0]) [5, -3],
    by norm_num [lagS0], claim_C1.2.1 lagS0 (by norm_num [lagS0]) [7]⟩

/-- Counterexample to claim C1 as stated: the dual-ascent variant escapes
`[0, multiplier_max]` for the valid bound `multiplier_max = 1` — from the
nonnegative state `lagS0` a single episodic cost `2` drives the multiplier to
`2 > 1`, since `update_lagrange_multiplier` applies no upper clip. -/
theorem claim_C1_counterexample :
    (update_lagrange_multiplier lagS0 2).lagrangian_multiplier = 2 ∧
      ¬ ((update_lagrange_multiplier lagS0 2).lagrangian_multiplier ≤ (1:ℚ)) := by
  constructor <;> norm_num [update_lagrange_multiplier, lagS0, max_def]

/-- Claim C2 (amended): in `DDPGPID` — the one PID variant whose update gates
on the warm-up period — every update cycle with `epoch ≤ warmup_epochs` leaves
the whole algorithm state (in particular the multiplier) unchanged and raises
nothing, for every episodic-cost input including NaN. -/
theorem claim_C2 (alg : DDPGPIDAlg) (Jc : EpCost) (h : alg.epoch ≤ alg.warmup_epochs) :
    DDPGPID_update alg Jc = Except.ok alg := by
  unfold DDPGPID_update
  rw [if_neg (by omega)]

/-- Witness for claim C2 at epoch `0` with `warmup_epochs = 5`. -/
theorem claim_C2_witness :
    (0:ℕ) ≤ 5 ∧
      DDPGPID_update ⟨0, 5, pidS0⟩ (some 2) = Except.ok ⟨0, 5, pidS0⟩ :=
  ⟨by decide, claim_C2 ⟨0, 5, pidS0⟩ (some 2) (by decide)⟩

/-- Counterexample to claim C2 as stated: the `CPPOPid` update (both files)
has no warm-up gate — at its very first update cycle (cycle `0`, before any
configured warm-up such as `5` cycles has elapsed) the episodic cost `2` moves
the multiplier of `pidS0` from its initial value `0` to `11/10`, so the
multiplier is not held at its initial value in every PID variant. -/
theorem claim_C2_counterexample :
    CPPOPid_update pidS0 (some 2) = Except.ok (pid_update pidS0 2) ∧
      (pid_update pidS0 2).multiplier = 11/10 ∧
      pidS0.multiplier = 0 ∧ ((11/10 : ℚ) ≠ 0) := by
  refine ⟨rfl, ?_, by norm_num [pidS0], by norm_num⟩
  norm_num [pid_update, pidS0, clip, max_def]

/-- Claim C3: feeding a NaN episodic cost into a multiplier update raises a
fatal error before the multiplier is modified (the `Except.error` result
carries no successor state), in every algorithm that feeds episodic cost into
a Lagrange/PID multiplier update: `CAPPETS._update_epoch` (its in-source
`assert not np.isnan(Jc)`), `DDPGPID._update` past warm-up, and both
`CPPOPid.update` implementations (via the controller's NaN error condition). -/
theorem claim_C3 :
    (∀ lag : Lagrange,
      CAPPETS_update_epoch lag none
        = Except.error "cost for updating lagrange multiplier is nan")
    ∧ (∀ alg : DDPGPIDAlg, alg.warmup_epochs < alg.epoch →
      DDPGPID_update alg none
        = Except.error "cost for updating lagrange multiplier is nan")
    ∧ (∀ s : PIDLagrangian,
      CPPOPid_update s none
        = Except.error "cost for updating lagrange multiplier is nan") := by
  refine ⟨fun lag => rfl, fun alg h => ?_, fun s => rfl⟩
  unfold DDPGPID_update
  rw [if_pos h]
  rfl

/-- Witness for claim C3 at epoch `6` past a warm-up of `5`. -/
theorem claim_C3_witness :
    (5:ℕ) < 6 ∧
      DDPGPID_update ⟨6, 5, pidS0⟩ none
        = Except.error "cost for updating lagrange multiplier is nan" :=
  ⟨by decide, claim_C3.2.1 ⟨6, 5, pidS0⟩ (by decide)⟩

/-! ## CAPPETS `_init_model` action-dimension check -/

/-- The action-dimension check of `CAPPETS._init_model`
(`src/omnisafe/algorithms/model_based/cap_pets.py`):
`if self._env.action_space is not None and len(self._env.action_space.shape) > 0:
self._action_dim = self._env.action_space.shape[0] else: raise ValueError(...)`.
The action space is represented by its shape (`none` = action space is
`None`); shape entries are the nonnegative numpy dimensions.  Note the guard
tests only `len(shape) > 0`, never `shape[0] > 0`. -/
def CAPPETS_init_action_dim (shape : Option (List ℕ)) : Except String ℕ :=
  match shape with
  | some (d :: _) => Except.ok d
  | _ => Except.error "Action dimension is None or less than 0"

/-- Claim C4 (code evaluated at the failing input): a degenerate action shape
`(0,)` — action dimension `0`, not positive — passes the guard of
`CAPPETS._init_model` and yields `_action_dim = 0` instead of the
`ValueError` the claim (and the code's own error message) require; the raise
fires only for a missing action space or an empty shape tuple, and a positive
first dimension indeed does not raise. -/
theorem claim_C4 :
    CAPPETS_init_action_dim (some [0]) = Except.ok 0 ∧
    CAPPETS_init_action_dim none
      = Except.error "Action dimension is None or less than 0" ∧
    CAPPETS_init_action_dim (some [])
      = Except.error "Action dimension is None or less than 0" ∧
    CAPPETS_init_action_dim (some [3]) = Except.ok 3 :=
  ⟨rfl, rfl, rfl, rfl⟩

/-! ## The two `CPPOPid` policy-loss implementations and `DDPGPID._loss_pi` -/

/-- `tensor.mean()` over a flat batch: sum divided by length (`0` for the
empty batch, matching `0 / 0 = 0` in `ℚ`). -/
def listMean (l : List ℚ) : ℚ := l.sum / l.length

/-- `torch.clamp(x, lo, hi) = min(max(x, lo), hi)`. -/
def clamp (x lo hi : ℚ) : ℚ := min (max x lo) hi

/-- `CPPOPid.compute_loss_pi` of `src/omnisafe/algorithms/on_policy/cppo_pid.py`.
The actor and `torch.exp` are external: `texp` stands for `torch.exp`,
`logp_new`/`logp_old` for `_log_p`/`data['log_p']`, `ent` for the per-sample
entropies of `dist`, `penalty` for `self.cost_penalty` (the PID multiplier),
`clip_c` for `self.clip` and `entropy_coef` for `self.cfgs.entropy_coef`:
`ratio = exp(_log_p - log_p)`; `ratio_clip = clamp(ratio, 1-clip, 1+clip)`;
`surr_adv = min(ratio*adv, ratio_clip*adv).mean()`;
`surr_cadv = max(ratio*cost_adv, ratio_clip*cost_adv).mean()`;
`loss = (-surr_adv - entropy_coef*entropy.mean() + penalty*surr_cadv) / (1 + penalty)`. -/
def CPPOPid_compute_loss_pi_v1 (texp : ℚ → ℚ) (clip_c entropy_coef penalty : ℚ)
    (logp_new logp_old adv cost_adv ent : List ℚ) : ℚ :=
  let ratio := List.zipWith (fun a b => texp (a - b)) logp_new logp_old
  let ratio_clip := ratio.map (fun r => clamp r (1 - clip_c) (1 + clip_c))
  let surr_adv := listMean (List.zipWith min
    (List.zipWith (fun x y => x * y) ratio adv)
    (List.zipWith (fun x y => x * y) ratio_clip adv))
  let surr_cadv := listMean (List.zipWith max
    (List.zipWith (fun x y => x * y) ratio cost_adv)
    (List.zipWith (fun x y => x * y) ratio_clip cost_adv))
  (-surr_adv - entropy_coef * listMean ent + penalty * surr_cadv) / (1 + penalty)

/-- `CPPOPid.compute_loss_pi` of
`src/omnisafe/algorithms/on_policy/pid_lagrange/cppo_pid.py` (the second,
near-duplicate implementation; its body is line-for-line the same
computation, with the buffer fields passed as separate tensor arguments). -/
def CPPOPid_compute_loss_pi_v2 (texp : ℚ → ℚ) (clip_c entropy_coef penalty : ℚ)
    (logp_new logp_old adv cost_adv ent : List ℚ) : ℚ :=
  let ratio := List.zipWith (fun a b => texp (a - b)) logp_new logp_old
  let ratio_clip := ratio.map (fun r => clamp r (1 - clip_c) (1 + clip_c))
  let surr_adv := listMean (List.zipWith min
    (List.zipWith (fun x y => x * y) ratio adv)
    (List.zipWith (fun x y => x * y) ratio_clip adv))
  let surr_cadv := listMean (List.zipWith max
    (List.zipWith (fun x y => x * y) ratio cost_adv)
    (List.zipWith (fun x y => x * y) ratio_clip cost_adv))
  (-surr_adv - entropy_coef * listMean ent + penalty * surr_cadv) / (1 + penalty)

/-- The PID-controller configuration block `PID_cfgs`. -/
structure PIDCfgs where
  pid_kp : ℚ
  pid_ki : ℚ
  pid_kd : ℚ
  cost_limit : ℚ
deriving Repr, DecidableEq

/-- The algorithm configuration object `self.cfgs`, restricted to the two
`cost_limit` sources the constructors read. -/
structure AlgoCfgs where
  cost_limit : ℚ
  PID_cfgs : PIDCfgs
deriving Repr, DecidableEq

/-- Constructor of `src/omnisafe/algorithms/on_policy/cppo_pid.py`:
`self.cost_limit = self.cfgs.cost_limit`. -/
def CPPOPid_v1_cost_limit (cfgs : AlgoCfgs) : ℚ := cfgs.cost_limit

/-- Constructor of `src/omnisafe/algorithms/on_policy/pid_lagrange/cppo_pid.py`:
`self.cost_limit = self.cfgs.PID_cfgs.cost_limit`. -/
def CPPOPid_v2_cost_limit (cfgs : AlgoCfgs) : ℚ := cfgs.PID_cfgs.cost_limit

/-- Claim C5: the two near-duplicate `CPPOPid.compute_loss_pi`
implementations are extensionally equal on all inputs, while the two
constructors source `cost_limit` from different configuration fields
(`cfgs.cost_limit` versus `cfgs.PID_cfgs.cost_limit`), which can disagree. -/
theorem claim_C5 :
    (∀ (texp : ℚ → ℚ) (clip_c entropy_coef penalty : ℚ)
        (logp_new logp_old adv cost_adv ent : List ℚ),
      CPPOPid_compute_loss_pi_v1 texp clip_c entropy_coef penalty
          logp_new logp_old adv cost_adv ent
        = CPPOPid_compute_loss_pi_v2 texp clip_c entropy_coef penalty
          logp_new logp_old adv cost_adv ent)
    ∧ (∀ cfgs : AlgoCfgs, CPPOPid_v1_cost_limit cfgs = cfgs.cost_limit)
    ∧ (∀ cfgs : AlgoCfgs, CPPOPid_v2_cost_limit cfgs = cfgs.PID_cfgs.cost_limit)
    ∧ (∃ cfgs : AlgoCfgs, CPPOPid_v1_cost_limit cfgs ≠ CPPOPid_v2_cost_limit cfgs) := by
  refine ⟨fun texp c e p ln lo a ca ent => rfl, fun cfgs => rfl, fun cfgs => rfl,
    ⟨⟨1, ⟨0, 0, 0, 2⟩⟩, ?_⟩⟩
  show (1:ℚ) ≠ 2
  norm_num

/-- `DDPGPID._loss_pi` (`src/omnisafe/algorithms/off_policy/ddpg_pid.py`):
`loss_r = -reward_critic(obs, action)[0]`,
`loss_c = multiplier * cost_critic(obs, action)[0]`,
`return (loss_r + loss_c).mean() / (1 + multiplier)`; `q_reward`/`q_cost`
are the critics' per-sample outputs. -/
def DDPGPID_loss_pi (multiplier : ℚ) (q_reward q_cost : List ℚ) : ℚ :=
  listMean (List.zipWith (fun qr qc => -qr + multiplier * qc) q_reward q_cost)
    / (1 + multiplier)

/-- The reward part of the `CPPOPid` penalized loss:
`-surr_adv - entropy_coef * entropy.mean()`. -/
def CPPOPid_reward_term (texp : ℚ → ℚ) (clip_c entropy_coef : ℚ)
    (logp_new logp_old adv ent : List ℚ) : ℚ :=
  let ratio := List.zipWith (fun a b => texp (a - b)) logp_new logp_old
  let ratio_clip := ratio.map (fun r => clamp r (1 - clip_c) (1 + clip_c))
  let surr_adv := listMean (List.zipWith min
    (List.zipWith (fun x y => x * y) ratio adv)
    (List.zipWith (fun x y => x * y) ratio_clip adv))
  (-surr_adv - entropy_coef * listMean ent)

/-- The cost part of the `CPPOPid` penalized loss: `surr_cadv`. -/
def CPPOPid_cost_term (texp : ℚ → ℚ) (clip_c : ℚ)
    (logp_new logp_old cost_adv : List ℚ) : ℚ :=
  let ratio := List.zipWith (fun a b => texp (a - b)) logp_new logp_old
  let ratio_clip := ratio.map (fun r => clamp r (1 - clip_c) (1 + clip_c))
  listMean (List.zipWith max
    (List.zipWith (fun x y => x * y) ratio cost_adv)
    (List.zipWith (fun x y => x * y) ratio_clip cost_adv))

/-- Sum of the elementwise `-qr + p * qc` over two equally long lists. -/
theorem zip_linear_sum (p : ℚ) : ∀ (qr qc : List ℚ), qr.length = qc.length →
    (List.zipWith (fun r c => -r + p * c) qr qc).sum = -(qr.sum) + p * qc.sum := by
  intro qr
  induction qr with
  | nil =>
    intro qc h
    cases qc with
    | nil => simp
    | cons c cs => simp at h
  | cons r rs ih =>
    intro qc h
    cases qc with
    | nil => simp at h
    | cons c cs =>
      simp only [List.zipWith_cons_cons, List.sum_cons]
      rw [ih cs (by simpa using h)]
      ring

/-- The generic shape of the penalized losses: `|(R + p*C) / (1 + p)|` is
bounded by `|R| + |C|` for every nonnegative penalty `p`. -/
theorem penalized_div_abs_le (R C p : ℚ) (hp : 0 ≤ p) :
    |(R + p * C) / (1 + p)| ≤ |R| + |C| := by
  have h1 : (0:ℚ) < 1 + p := by linarith
  rw [abs_div, abs_of_pos h1, div_le_iff₀ h1]
  have h2 : |R + p * C| ≤ |R| + p * |C| := by
    calc |R + p * C| ≤ |R| + |p * C| := abs_add _ _
    _ = |R| + p * |C| := by rw [abs_mul, abs_of_nonneg hp]
  have hR := abs_nonneg R
  have hC := abs_nonneg C
  nlinarith

/-- Negating every list element negates the sum. -/
theorem sum_map_negate : ∀ l : List ℚ, (l.map (fun q => -q)).sum = -l.sum := by
  intro l
  induction l with
  | nil => simp
  | cons x xs ih => simp [ih]; ring

/-- The `DDPGPID._loss_pi` value in penalized-fraction form. -/
theorem ddpg_loss_form (p : ℚ) (q_reward q_cost : List ℚ)
    (h : q_reward.length = q_cost.length) :
    DDPGPID_loss_pi p q_reward q_cost
      = (listMean (q_reward.map (fun q => -q)) + p * listMean q_cost) / (1 + p) := by
  unfold DDPGPID_loss_pi listMean
  rw [zip_linear_sum p q_reward q_cost h, List.length_zipWith, h, min_self,
    List.length_map, sum_map_negate, h]
  ring

/-- Claim C10: in every PID-Lagrangian policy-loss computation present (both
`CPPOPid.compute_loss_pi` variants and `DDPGPID._loss_pi`), for every
nonnegative multiplier `p` the loss equals
`(reward term + p * cost term) / (1 + p)`; the effective cost weight
`p / (1 + p)` is below `1`, the reward weight `1 / (1 + p)` lies in `(0, 1]`,
and the loss stays bounded by `|reward term| + |cost term|` however large the
multiplier grows. -/
theorem claim_C10 (p : ℚ) (hp : 0 ≤ p) :
    (∀ (texp : ℚ → ℚ) (clip_c entropy_coef : ℚ)
        (logp_new logp_old adv cost_adv ent : List ℚ),
      CPPOPid_compute_loss_pi_v1 texp clip_c entropy_coef p
          logp_new logp_old adv cost_adv ent
        = (CPPOPid_reward_term texp clip_c entropy_coef logp_new logp_old adv ent
            + p * CPPOPid_cost_term texp clip_c logp_new logp_old cost_adv) / (1 + p)
      ∧ CPPOPid_compute_loss_pi_v2 texp clip_c entropy_coef p
          logp_new logp_old adv cost_adv ent
        = (CPPOPid_reward_term texp clip_c entropy_coef logp_new logp_old adv ent
            + p * CPPOPid_cost_term texp clip_c logp_new logp_old cost_adv) / (1 + p))
    ∧ (∀ q_reward q_cost : List ℚ, q_reward.length = q_cost.length →
      DDPGPID_loss_pi p q_reward q_cost
        = (listMean (q_reward.map (fun q => -q)) + p * listMean q_cost) / (1 + p))
    ∧ p / (1 + p) < 1
    ∧ (0 < 1 / (1 + p) ∧ 1 / (1 + p) ≤ 1)
    ∧ (∀ (texp : ℚ → ℚ) (clip_c entropy_coef : ℚ)
        (logp_new logp_old adv cost_adv ent : List ℚ),
      |CPPOPid_compute_loss_pi_v1 texp clip_c entropy_coef p
          logp_new logp_old adv cost_adv ent|
        ≤ |CPPOPid_reward_term texp clip_c entropy_coef logp_new logp_old adv ent|
          + |CPPOPid_cost_term texp clip_c logp_new logp_old cost_adv|)
    ∧ (∀ q_reward q_cost : List ℚ, q_reward.length = q_cost.length →
      |DDPGPID_loss_pi p q_reward q_cost|
        ≤ |listMean (q_reward.map (fun q => -q))| + |listMean q_cost|) := by
  have h1 : (0:ℚ) < 1 + p := by linarith
  have hform : ∀ (texp : ℚ → ℚ) (clip_c entropy_coef : ℚ)
      (logp_new logp_old adv cost_adv ent : List ℚ),
      CPPOPid_compute_loss_pi_v1 texp clip_c entropy_coef p
          logp_new logp_old adv cost_adv ent
        = (CPPOPid_reward_term texp clip_c entropy_coef logp_new logp_old adv ent
            + p * CPPOPid_cost_term texp clip_c logp_new logp_old cost_adv) / (1 + p) := by
    intro texp clip_c entropy_coef logp_new logp_old adv cost_adv ent
    unfold CPPOPid_compute_loss_pi_v1 CPPOPid_reward_term CPPOPid_cost_term
    ring_nf
  refine ⟨fun texp c e ln lo a ca ent => ⟨hform texp c e ln lo a ca ent,
      hform texp c e ln lo a ca ent⟩,
    fun qr qc h => ddpg_loss_form p qr qc h,
    (div_lt_one h1).mpr (by linarith),
    ⟨div_pos one_pos h1, (div_le_one h1).mpr (by linarith)⟩,
    fun texp c e ln lo a ca ent => ?_, fun qr qc h => ?_⟩
  · rw [hform texp c e ln lo a ca ent]
    exact penalized_div_abs_le _ _ p hp
  · rw [ddpg_loss_form p qr qc h]
    exact penalized_div_abs_le _ _ p hp

/-- Witness for claim C10 at `p = 2`, with the inner facts instantiated on
concrete batches by the theorem itself. -/
theorem claim_C10_witness :
    (0:ℚ) ≤ 2 ∧ ((2:ℚ) / (1 + 2) < 1 ∧ (0 < 1 / (1 + (2:ℚ)) ∧ 1 / (1 + (2:ℚ)) ≤ 1)) :=
  ⟨by norm_num, (claim_C10 2 (by norm_num)).2.2.1,
    (claim_C10 2 (by norm_num)).2.2.2.1⟩

/-! ## `SafetyGymnasiumModelBased.get_cost_from_obs_tensor` (2-D, binary)

From `src/omnisafe/envs/safety_gymnasium_modelbased.py`.  A 2-D observation
batch is a list of rows; the hazards slice `key_to_slice_tensor['hazards']`
is the contiguous block `[start, start + hlen)` of a row, reshaped to
consecutive `(x, y)` pairs.  The source compares
`torch.sqrt(x^2 + y^2) <= hazards_size`; over exact arithmetic this is
encoded as `x^2 + y^2 <= hazards_size^2`, which `dist_sqrt_le_iff` below
proves equivalent for the nonnegative `hazards_size`. -/

/-- `reshape(batch_size, -1, 2)` on one row: consecutive pairing. -/
def pairUp : List ℚ → List (ℚ × ℚ)
  | x :: y :: rest => (x, y) :: pairUp rest
  | _ => []

/-- The hazards slice `slice(start, start + hlen)` of a flattened row. -/
def hazardsSlice (start hlen : ℕ) (row : List ℚ) : List ℚ := (row.drop start).take hlen

/-- One row of `get_cost_from_obs_tensor(obs, is_binary=True)`:
`hazards_dist = sqrt(sum(square(hazard_obs), dim=2))`;
`cost = where(hazards_dist <= hazards_size, 1.0, 0.0)`; `cost = cost.sum(1)`;
`cost = where(cost >= 1, 1.0, 0.0)`. -/
def binaryCostRow (hazards_size : ℚ) (start hlen : ℕ) (row : List ℚ) : ℚ :=
  let hazard_obs := pairUp (hazardsSlice start hlen row)
  let indicator := hazard_obs.map
    (fun q => if q.1 ^ 2 + q.2 ^ 2 ≤ hazards_size ^ 2 then (1:ℚ) else 0)
  if 1 ≤ indicator.sum then 1 else 0

/-- `get_cost_from_obs_tensor` on a 2-D batch with `is_binary=True`:
the per-row binary cost for every row. -/
def get_cost_from_obs_tensor (hazards_size : ℚ) (start hlen : ℕ)
    (obs : List (List ℚ)) : List ℚ :=
  obs.map (binaryCostRow hazards_size start hlen)

/-- Exact-arithmetic form of the source's comparison: for a nonnegative
size, the Euclidean norm of `(x, y)` is within `c` iff the squared norm is
within `c^2`. -/
theorem dist_sqrt_le_iff (x y c : ℚ) (hc : 0 ≤ c) :
    Real.sqrt ((x:ℝ) ^ 2 + (y:ℝ) ^ 2) ≤ (c:ℝ) ↔ (x ^ 2 + y ^ 2 : ℚ) ≤ c ^ 2 := by
  rw [Real.sqrt_le_left (by exact_mod_cast hc)]
  constructor
  · intro h
    exact_mod_cast h
  · intro h
    exact_mod_cast h

/-- Each entry of the hazard indicator list is nonnegative. -/
theorem indicator_sum_nonneg (l : List (ℚ × ℚ)) (c2 : ℚ) :
    0 ≤ (l.map (fun q => if q.1 ^ 2 + q.2 ^ 2 ≤ c2 then (1:ℚ) else 0)).sum :=
  List.sum_nonneg (fun x hx => by
    simp only [List.mem_map] at hx
    obtain ⟨q, _, rfl⟩ := hx
    by_cases h : q.1 ^ 2 + q.2 ^ 2 ≤ c2 <;> simp [h])

/-- The summed indicator reaches `1` exactly when some pair is within the
squared threshold. -/
theorem one_le_indicator_sum (l : List (ℚ × ℚ)) (c2 : ℚ) :
    (1 ≤ (l.map (fun q => if q.1 ^ 2 + q.2 ^ 2 ≤ c2 then (1:ℚ) else 0)).sum)
      ↔ ∃ q ∈ l, q.1 ^ 2 + q.2 ^ 2 ≤ c2 := by
  induction l with
  | nil => simp
  | cons a l ih =>
    by_cases h : a.1 ^ 2 + a.2 ^ 2 ≤ c2
    · have hnn := indicator_sum_nonneg l c2
      simp only [List.map_cons, List.sum_cons, if_pos h]
      constructor
      · intro _
        exact ⟨a, List.mem_cons_self a l, h⟩
      · intro _
        linarith
    · simp only [List.map_cons, List.sum_cons, if_neg h, zero_add, ih]
      constructor
      · rintro ⟨q, hq, hq2⟩
        exact ⟨q, List.mem_cons_of_mem a hq, hq2⟩
      · rintro ⟨q, hq, hq2⟩
        rcases List.mem_cons.mp hq with rfl | hq
        · exact absurd hq2 h
        · exact ⟨q, hq, hq2⟩

/-- Claim C6: on every 2-D batch, `get_cost_from_obs_tensor` with
`is_binary=True` maps each row independently; each row's cost is in
`{0.0, 1.0}` and equals `1.0` exactly when the Euclidean norm of at least
one hazard's egocentric `(x, y)` pair in the hazards slice is at most
`hazards_size`. -/
theorem claim_C6 (hazards_size : ℚ) (hc : 0 ≤ hazards_size) (start hlen : ℕ)
    (obs : List (List ℚ)) :
    get_cost_from_obs_tensor hazards_size start hlen obs
        = obs.map (binaryCostRow hazards_size start hlen)
    ∧ ∀ row ∈ obs,
      (binaryCostRow hazards_size start hlen row = 0
        ∨ binaryCostRow hazards_size start hlen row = 1)
      ∧ (binaryCostRow hazards_size start hlen row = 1
        ↔ ∃ q ∈ pairUp (hazardsSlice start hlen row),
            Real.sqrt ((q.1:ℝ) ^ 2 + (q.2:ℝ) ^ 2) ≤ (hazards_size:ℝ)) := by
  refine ⟨rfl, fun row _ => ?_⟩
  have hkey : (1 ≤ ((pairUp (hazardsSlice start hlen row)).map
      (fun q => if q.1 ^ 2 + q.2 ^ 2 ≤ hazards_size ^ 2 then (1:ℚ) else 0)).sum)
      ↔ ∃ q ∈ pairUp (hazardsSlice start hlen row),
          Real.sqrt ((q.1:ℝ) ^ 2 + (q.2:ℝ) ^ 2) ≤ (hazards_size:ℝ) := by
    rw [one_le_indicator_sum]
    constructor
    · rintro ⟨q, hq, h2⟩
      exact ⟨q, hq, (dist_sqrt_le_iff q.1 q.2 hazards_size hc).mpr h2⟩
    · rintro ⟨q, hq, h2⟩
      exact ⟨q, hq, (dist_sqrt_le_iff q.1 q.2 hazards_size hc).mp h2⟩
  have hval : binaryCostRow hazards_size start hlen row
      = if 1 ≤ ((pairUp (hazardsSlice start hlen row)).map
          (fun q => if q.1 ^ 2 + q.2 ^ 2 ≤ hazards_size ^ 2 then (1:ℚ) else 0)).sum
        then (1:ℚ) else 0 := rfl
  rw [hval]
  split_ifs with h
  · exact ⟨Or.inr rfl, iff_of_true rfl (hkey.mp h)⟩
  · exact ⟨Or.inl rfl, iff_of_false (by norm_num) (fun hex => h (hkey.mpr hex))⟩

/-- Witness for claim C6 on a one-row batch whose hazards slice
`[1/10, 0, 3, 4]` holds one hazard inside the radius `1/5` and one outside. -/
theorem claim_C6_witness :
    (0:ℚ) ≤ 1/5 ∧
    (get_cost_from_obs_tensor (1/5) 2 4 [[9, 9, 1/10, 0, 3, 4]]
        = [[9, 9, 1/10, 0, 3, 4]].map (binaryCostRow (1/5) 2 4)
      ∧ ∀ row ∈ [[(9:ℚ), 9, 1/10, 0, 3, 4]],
        (binaryCostRow (1/5) 2 4 row = 0 ∨ binaryCostRow (1/5) 2 4 row = 1)
        ∧ (binaryCostRow (1/5) 2 4 row = 1
          ↔ ∃ q ∈ pairUp (hazardsSlice 2 4 row),
              Real.sqrt ((q.1:ℝ) ^ 2 + (q.2:ℝ) ^ 2) ≤ ((1/5 : ℚ):ℝ))) :=
  ⟨by norm_num, claim_C6 (1/5) (by norm_num) 2 4 [[9, 9, 1/10, 0, 3, 4]]⟩

/-! ## `StatisticsTools` configuration-key encoding

From `src/omnisafe/common/statistics_tools.py`.  Python strings are modelled
as their character lists. -/

/-- A Python string as its character list. -/
abbrev PyStr := List Char

/-- Python `str.split(':')`. -/
def splitColon : PyStr → List PyStr
  | [] => [[]]
  | c :: rest =>
    let r := splitColon rest
    if c = ':' then [] :: r
    else
      match r with
      | h :: t => (c :: h) :: t
      | [] => [[c]]

/-- Python `str.replace('-', '_')` (single-character pattern and
replacement). -/
def replaceDash (s : PyStr) : PyStr := s.map (fun c => if c = '-' then '_' else c)

/-- A nested configuration value: a JSON-like atom or a dict. -/
inductive CfgVal where
  | leaf : Int → CfgVal
  | node : List (PyStr × CfgVal) → CfgVal

/-- The nesting loop of `decompress_key`:
`return_dict = {keys_split[-1]: value}` then
`for key in reversed(keys_split[:-1]): return_dict = {key: return_dict}`. -/
def decompressBuild : List PyStr → CfgVal → CfgVal
  | [], v => v
  | [k], v => CfgVal.node [(k, v)]
  | k :: k2 :: rest, v => CfgVal.node [(k, decompressBuild (k2 :: rest) v)]

/-- `StatisticsTools.decompress_key`:
`keys_split = compressed_key.replace('-', '_').split(':')` followed by the
nesting loop (whose per-component second `replace` is a no-op, the whole key
having been replaced already). -/
def decompress_key (compressed_key : PyStr) (value : CfgVal) : CfgVal :=
  decompressBuild (splitColon (replaceDash compressed_key)) value

/-- The lookup loop of `get_compressed_key`; a missing key (Python
`KeyError`) or a non-dict intermediate (`TypeError`) is `none`. -/
def getWalk : List PyStr → CfgVal → Option CfgVal
  | [], v => some v
  | k :: rest, CfgVal.node entries =>
    match entries.lookup k with
    | some v => getWalk rest v
    | none => none
  | _ :: _, CfgVal.leaf _ => none

/-- `StatisticsTools.get_compressed_key`:
`for k in key.split(':'): inner_config = inner_config[k]` — note it does NOT
apply `replace('-', '_')` to the key. -/
def get_compressed_key (dictionary : CfgVal) (key : PyStr) : Option CfgVal :=
  getWalk (splitColon key) dictionary

/-- Walking the components used to build a nested singleton dict recovers
the stored value. -/
theorem getWalk_decompressBuild (parts : List PyStr) (v : CfgVal) :
    getWalk parts (decompressBuild parts v) = some v := by
  induction parts with
  | nil => rfl
  | cons k rest ih =>
    cases rest with
    | nil => simp [decompressBuild, getWalk, List.lookup]
    | cons k2 rest2 =>
      show getWalk (k :: k2 :: rest2)
        (CfgVal.node [(k, decompressBuild (k2 :: rest2) v)]) = some v
      simp only [getWalk, List.lookup, beq_self_eq_true]
      exact ih

/-- Claim C7 (amended): for every configuration key containing no `'-'`
character (equivalently, fixed by `replace('-', '_')`) and every value,
`get_compressed_key` applied to `decompress_key`'s dict and the same key
returns the original value exactly. -/
theorem claim_C7 (key : PyStr) (v : CfgVal) (h : replaceDash key = key) :
    get_compressed_key (decompress_key key v) key = some v := by
  unfold get_compressed_key decompress_key
  rw [h]
  exact getWalk_decompressBuild (splitColon key) v

/-- Witness for claim C7 on the dash-free key `"a:b"`. -/
theorem claim_C7_witness :
    replaceDash ['a', ':', 'b'] = ['a', ':', 'b'] ∧
      get_compressed_key (decompress_key ['a', ':', 'b'] (CfgVal.leaf 3))
        ['a', ':', 'b'] = some (CfgVal.leaf 3) :=
  ⟨by decide, claim_C7 ['a', ':', 'b'] (CfgVal.leaf 3) (by decide)⟩

/-- Counterexample to claim C7 as stated: the key `"a-b"` is stored by
`decompress_key` under `"a_b"` (its dashes replaced), but
`get_compressed_key` looks the raw key `"a-b"` up without replacing, so the
round trip loses the value (Python raises `KeyError`). -/
theorem claim_C7_counterexample :
    get_compressed_key (decompress_key ['a', '-', 'b'] (CfgVal.leaf 7))
        ['a', '-', 'b'] = none ∧
      (none ≠ some (CfgVal.leaf 7)) :=
  ⟨rfl, fun h => Option.noConfusion h⟩

/-! ## `OrderEnforcing` wrapper

From `src/envs/safety-gymnasium/safety_gymnasium/wrappers/order_enforcing.py`.
The wrapped environment is an abstract state `σ` with its `step`/`reset`/
`render` effects passed as functions; a raised `ResetNeeded` is an
`Except.error`. -/

/-- The wrapper state: the `_has_reset` and
`_disable_render_order_enforcing` flags and the wrapped environment. -/
structure OrderEnforcing (σ : Type) where
  has_reset : Bool
  disable_render_order_enforcing : Bool
  env : σ

/-- `OrderEnforcing.__init__(env, disable_render_order_enforcing=False)`:
`self._has_reset = False`. -/
def OE_init {σ : Type} (env : σ) (disable : Bool) : OrderEnforcing σ :=
  { has_reset := false, disable_render_order_enforcing := disable, env := env }

/-- `OrderEnforcing.step`: raise `ResetNeeded` if `not self._has_reset`,
else delegate to `self.env.step(action)`. -/
def OE_step {σ : Type} (envStep : σ → σ) (w : OrderEnforcing σ) :
    Except String (OrderEnforcing σ) :=
  if w.has_reset = false then
    Except.error "Cannot call env.step() before calling env.reset()"
  else
    Except.ok { w with env := envStep w.env }

/-- `OrderEnforcing.reset`: set `self._has_reset = True`, delegate to
`self.env.reset(**kwargs)`. -/
def OE_reset {σ : Type} (envReset : σ → σ) (w : OrderEnforcing σ) : OrderEnforcing σ :=
  { w with has_reset := true, env := envReset w.env }

/-- `OrderEnforcing.render`: raise `ResetNeeded` unless order enforcing is
disabled or a reset happened, else delegate. -/
def OE_render {σ : Type} (envRender : σ → σ) (w : OrderEnforcing σ) :
    Except String (OrderEnforcing σ) :=
  if !w.disable_render_order_enforcing && !w.has_reset then
    Except.error "Cannot call env.render() before calling env.reset()"
  else
    Except.ok { w with env := envRender w.env }

/-- The wrapper operations, for reasoning about arbitrary call sequences. -/
inductive EnvOp where
  | step
  | reset
  | render

/-- Apply one operation; a raised error leaves the wrapper state unchanged
(the source raises before any mutation). -/
def OE_apply {σ : Type} (fs fr fv : σ → σ) (w : OrderEnforcing σ) :
    EnvOp → OrderEnforcing σ
  | EnvOp.step =>
    match OE_step fs w with
    | Except.ok w2 => w2
    | Except.error _ => w
  | EnvOp.reset => OE_reset fr w
  | EnvOp.render =>
    match OE_render fv w with
    | Except.ok w2 => w2
    | Except.error _ => w

/-- Run a finite sequence of wrapper operations. -/
def OE_run {σ : Type} (fs fr fv : σ → σ) (w : OrderEnforcing σ)
    (ops : List EnvOp) : OrderEnforcing σ :=
  ops.foldl (OE_apply fs fr fv) w

/-- No operation clears `_has_reset`. -/
theorem OE_apply_preserves {σ : Type} (fs fr fv : σ → σ) (w : OrderEnforcing σ)
    (op : EnvOp) (h : w.has_reset = true) :
    (OE_apply fs fr fv w op).has_reset = true := by
  cases op with
  | step => simp [OE_apply, OE_step, h]
  | reset => simp [OE_apply, OE_reset]
  | render => simp [OE_apply, OE_render, h]

/-- Claim C9: `OrderEnforcing.step` raises `ResetNeeded` exactly when
`_has_reset` is false; a fresh wrapper starts with `_has_reset = False`;
`reset` sets it; no operation sequence ever clears it again; and once it is
set, `step` raises nothing and delegates to the wrapped environment. -/
theorem claim_C9 (σ : Type) (fs fr fv : σ → σ) :
    (∀ w : OrderEnforcing σ,
      (∃ e, OE_step fs w = Except.error e) ↔ w.has_reset = false)
    ∧ (∀ (e0 : σ) (d : Bool), (OE_init e0 d).has_reset = false)
    ∧ (∀ w : OrderEnforcing σ, (OE_reset fr w).has_reset = true)
    ∧ (∀ (w : OrderEnforcing σ) (ops : List EnvOp), w.has_reset = true →
      (OE_run fs fr fv w ops).has_reset = true)
    ∧ (∀ w : OrderEnforcing σ, w.has_reset = true →
      OE_step fs w = Except.ok { w with env := fs w.env }) := by
  refine ⟨fun w => ?_, fun e0 d => rfl, fun w => rfl, fun w ops h => ?_,
    fun w h => ?_⟩
  · cases hw : w.has_reset with
    | false => simp [OE_step, hw]
    | true => simp [OE_step, hw]
  · induction ops generalizing w with
    | nil => exact h
    | cons op rest ih => exact ih (OE_apply fs fr fv w op) (OE_apply_preserves fs fr fv w op h)
  · simp [OE_step, h]

/-- Witness for claim C9 on a counter environment: after one `reset`, the
flag is set and a subsequent `step` run keeps it set. -/
theorem claim_C9_witness :
    (OE_reset (fun n => n) (OE_init (0:ℕ) false)).has_reset = true ∧
      (OE_run (fun n => n + 1) (fun n => n) (fun n => n)
        (OE_reset (fun n => n) (OE_init (0:ℕ) false)) [EnvOp.step]).has_reset = true :=
  ⟨(claim_C9 ℕ (fun n => n + 1) (fun n => n) (fun n => n)).2.2.1
      (OE_init (0:ℕ) false),
    (claim_C9 ℕ (fun n => n + 1) (fun n => n) (fun n => n)).2.2.2.1
      (OE_reset (fun n => n) (OE_init (0:ℕ) false)) [EnvOp.step] rfl⟩

end OmniSafe
